import Mathlib

set_option maxRecDepth 200000

/-!
Formal model of the signal-generation and alert-deduplication engine of
`streamlit_app.py` (Smart Money Tracker).  Python floats are modelled as
exact rationals; pandas series as lists; `None`/`NaN` as `Option`; the
wall clock (`datetime.now()`) as an explicit rational parameter counting
seconds since the Unix epoch.  External collaborators (yfinance fetch,
the Telegram channel) are modelled as explicit function / boolean
parameters, exactly at the call interface the code uses.
-/

/-- Python `int(x)` applied to a float: truncation toward zero. -/
def pyInt (x : ℚ) : Int := x.num / x.den

/-- Python `round(x, 2)`: round to two decimal places (round to the
nearest hundredth; Python breaks exact decimal ties to even, but no
statement below depends on the tie rule, so the Mathlib `round` is
used). -/
def round2 (x : ℚ) : ℚ := ((round (100 * x) : Int) : ℚ) / 100

/-- Constant `SL_PCT = 2.0` from the CONFIG block (stop-loss percent). -/
def SL_PCT : ℚ := 2

/-- Constant `TP_PCT = 5.0` from the CONFIG block (take-profit percent). -/
def TP_PCT : ℚ := 5

/-- One OHLCV row restricted to the columns the engine reads
(`Close`, `Volume`). -/
structure Bar where
  close : ℚ
  volume : ℚ
  deriving DecidableEq

/-- The directional signal values the code writes into the result dict
(the strings `"BUY"` / `"SELL"`); a `NONE` classification is represented
by the surrounding `Option` being `none`, as in the code (`return None`). -/
inductive Direction where
  | BUY
  | SELL
  deriving DecidableEq

/-- The result dict built at the end of `compute_signals_for_symbol`. -/
structure SignalResult where
  symbol : String
  signal : Direction
  price : ℚ
  sl : ℚ
  tp : ℚ
  vol : Int
  avg_vol : Option Int
  reasons : String
  time : String
  deriving DecidableEq

/-- Tail of `Series.ewm(span, adjust=False).mean()`: the recurrence
`ema[t] = price[t]*k + ema[t-1]*(1-k)` continued from seed `e`. -/
def emaFrom (k : ℚ) (e : ℚ) : List ℚ → List ℚ
  | [] => []
  | c :: cs =>
    let e2 := c * k + e * (1 - k)
    e2 :: emaFrom k e2 cs

/-- Full exponential-moving-average series, seeded with the first close
(`ema[0] = price[0]`), as pandas `ewm(..., adjust=False).mean()` does. -/
def emaSeries (k : ℚ) : List ℚ → List ℚ
  | [] => []
  | c :: cs => c :: emaFrom k c cs

/-- Tail of `Series.diff()`: consecutive differences given the previous
value. -/
def diffsFrom (prev : ℚ) : List ℚ → List (Option ℚ)
  | [] => []
  | c :: cs => some (c - prev) :: diffsFrom c cs

/-- `Series.diff()`: first entry is NaN (`none`), then consecutive
differences. -/
def diffs : List ℚ → List (Option ℚ)
  | [] => []
  | c :: cs => none :: diffsFrom c cs

/-- Collapse a list of optional values: `some` of the list of values when
every entry is defined, else `none` (a NaN anywhere poisons the window). -/
def allSome : List (Option ℚ) → Option (List ℚ)
  | [] => some []
  | none :: _ => none
  | some x :: xs =>
    match allSome xs with
    | some ys => some (x :: ys)
    | none => none

/-- `Series.rolling(window=n).mean()`: at position `i` the mean of the
`n` entries ending at `i`, defined only when the window is full
(`n ≤ i+1`) and contains no NaN (pandas requires `min_periods = n`
non-NaN observations). -/
def rollingMean (n : Nat) (xs : List (Option ℚ)) : List (Option ℚ) :=
  (List.range xs.length).map fun i =>
    if n ≤ i + 1 then
      match allSome ((xs.take (i + 1)).drop (i + 1 - n)) with
      | some vs => some (vs.sum / (n : ℚ))
      | none => none
    else none

/-- The RSI column of `add_indicators`: delta, clipped gain/loss series,
14-period rolling means, `rs = ma_up / (ma_down + 1e-9)`,
`RSI = 100 - 100/(1+rs)`; NaN wherever either rolling mean is NaN. -/
def rsiSeries (closes : List ℚ) : List (Option ℚ) :=
  let delta := diffs closes
  let up := delta.map (Option.map fun d => max d 0)
  let down := delta.map (Option.map fun d => -(min d 0))
  let maUp := rollingMean 14 up
  let maDown := rollingMean 14 down
  (List.range closes.length).map fun i =>
    match maUp.getD i none, maDown.getD i none with
    | some u, some d => some (100 - 100 / (1 + u / (d + 1 / 1000000000)))
    | _, _ => none

/-- Close column of a history. -/
def closesOf (h : List Bar) : List ℚ := h.map Bar.close

/-- Volume column of a history. -/
def volsOf (h : List Bar) : List ℚ := h.map Bar.volume

/-- `float(today['Close'])` where `today = hist.iloc[-1]`. -/
def todayClose (h : List Bar) : ℚ := (closesOf h).getLastD 0

/-- `float(today['Volume'])`. -/
def todayVol (h : List Bar) : ℚ := (volsOf h).getLastD 0

/-- `float(hist['Volume'][-21:-1].mean()) if len(hist) >= 22 else
float(hist['Volume'].mean())`: trailing baseline volume (mean of the 20
bars preceding today when at least 22 bars exist). -/
def avgVol (h : List Bar) : ℚ :=
  if 22 ≤ h.length then (((volsOf h).drop (h.length - 21)).take 20).sum / 20
  else (volsOf h).sum / ((volsOf h).length : ℚ)

/-- `float(today['EMA20'])`: last entry of the span-20 EMA
(smoothing factor `2/(20+1)`). -/
def ema20of (h : List Bar) : ℚ := (emaSeries (2 / 21) (closesOf h)).getLastD 0

/-- `float(today['EMA50'])`: last entry of the span-50 EMA
(smoothing factor `2/(50+1)`). -/
def ema50of (h : List Bar) : ℚ := (emaSeries (2 / 51) (closesOf h)).getLastD 0

/-- `rsi_val = None if math.isnan(rsi) else rsi` for the last RSI entry. -/
def rsiOf (h : List Bar) : Option ℚ := (rsiSeries (closesOf h)).getLastD none

/-- `vol_spike = (avg_vol > 0) and (today_vol > 2 * avg_vol)`. -/
def volSpike (h : List Bar) : Bool :=
  decide (0 < avgVol h) && decide (2 * avgVol h < todayVol h)

/-- `rsi_val is not None and rsi_val > 55` (bullish momentum term of
`buy_cond`). -/
def momentumHigh (rv : Option ℚ) : Bool :=
  match rv with
  | some x => decide (55 < x)
  | none => false

/-- `rsi_val is not None and rsi_val < 45` (bearish momentum term of
`sell_cond`). -/
def momentumLow (rv : Option ℚ) : Bool :=
  match rv with
  | some x => decide (x < 45)
  | none => false

/-- Signals logic of `compute_signals_for_symbol` (lines 77-100):
`buy_cond = ema_up and momentum_high and vol_spike`,
`sell_cond = ema_down and momentum_low and vol_spike`,
`signal = "BUY" if buy_cond elif "SELL" if sell_cond else None`. -/
def classify (ema20 ema50 : ℚ) (rv : Option ℚ) (sp : Bool) : Option Direction :=
  if decide (ema50 < ema20) && momentumHigh rv && sp then some Direction.BUY
  else if decide (ema20 < ema50) && momentumLow rv && sp then some Direction.SELL
  else none

/-- Construction of the `reasons` list (lines 86-94), in the code's
append order: volume spike, trend-up label, trend-down label, RSI value
(formatted with Python `int` truncation). -/
def mkReasons (sp emaUp emaDown : Bool) (rv : Option ℚ) : List String :=
  (if sp then ["Volume spike"] else []) ++
  (if emaUp then ["20>50 EMA"] else []) ++
  (if emaDown then ["20<50 EMA"] else []) ++
  (match rv with
   | some x => ["RSI " ++ toString (pyInt x)]
   | none => [])

/-- Number of whole days from the civil date `(y, m, d)` to 1970-01-01
(proleptic Gregorian; the standard era-based formula).  Valid for
`1 ≤ y`, `1 ≤ m ≤ 12`, `1 ≤ d`. -/
def daysFromCivil (y m d : Nat) : Int :=
  let y2 := y - (if m ≤ 2 then 1 else 0)
  let era := y2 / 400
  let yoe := y2 - era * 400
  let doy := (153 * (m + (if 2 < m then 0 else 12) - 3) + 2) / 5 + d - 1
  let doe := yoe * 365 + yoe / 4 - yoe / 100 + doy
  (era * 146097 + doe : Int) - 719468

/-- Seconds since the Unix epoch of a civil date-time. -/
def epochSeconds (y mo d h mi s : Nat) : Int :=
  daysFromCivil y mo d * 86400 + h * 3600 + mi * 60 + s

/-- Value of a digit string read in base 10. -/
def digitsToNat (s : List Char) : Nat :=
  s.foldl (fun n c => n * 10 + (c.toNat - 48)) 0

/-- Length of a month in the Gregorian calendar. -/
def daysInMonth (y m : Nat) : Nat :=
  if m = 2 then
    if (y % 4 = 0 && y % 100 != 0) || y % 400 = 0 then 29 else 28
  else if m = 4 || m = 6 || m = 9 || m = 11 then 30 else 31

/-- Model of `datetime.strptime(s, "%Y-%m-%d %H:%M:%S")` followed by
subtraction semantics (`total_seconds`): `some` of the epoch seconds for
a canonical zero-padded timestamp with in-range fields, `none` when the
string does not parse (Python raises `ValueError`, caught by the code's
`except`). -/
def parseTime (str : String) : Option ℚ :=
  match str.toList with
  | [a, b, c, d, s1, e, f, s2, g, h, s3, i, j, s4, l, m, s5, n, o] =>
    if (s1 = '-' && s2 = '-' && s3 = ' ' && s4 = ':' && s5 = ':' &&
        [a, b, c, d, e, f, g, h, i, j, l, m, n, o].all Char.isDigit) then
      let y := digitsToNat [a, b, c, d]
      let mo := digitsToNat [e, f]
      let dd := digitsToNat [g, h]
      let hh := digitsToNat [i, j]
      let mi := digitsToNat [l, m]
      let ss := digitsToNat [n, o]
      if (1 ≤ y && 1 ≤ mo && mo ≤ 12 && 1 ≤ dd && dd ≤ daysInMonth y mo &&
          hh ≤ 23 && mi ≤ 59 && ss ≤ 59) then
        some ((epochSeconds y mo dd hh mi ss : Int) : ℚ)
      else none
    else none
  | _ => none

/-- Civil date `(year-part, month, day)` of a day count from the epoch
(inverse of `daysFromCivil`; `year-part` still lacks the `m ≤ 2`
correction, which the caller applies). -/
def civilFromDays (z : Int) : Int × Nat × Nat :=
  let z2 := z + 719468
  let era := z2.fdiv 146097
  let doe := (z2 - era * 146097).toNat
  let yoe := (doe - doe / 1460 + doe / 36524 - doe / 146096) / 365
  let doy := doe - (365 * yoe + yoe / 4 - yoe / 100)
  let mp := (5 * doy + 2) / 153
  let dd := doy - (153 * mp + 2) / 5 + 1
  let mo := if mp < 10 then mp + 3 else mp - 9
  ((yoe : Int) + era * 400 + (if mo ≤ 2 then 1 else 0), mo, dd)

/-- Zero-pad a number to two digits. -/
def pad2 (n : Nat) : String :=
  if n < 10 then "0" ++ toString n else toString n

/-- Zero-pad a number to four digits. -/
def pad4 (n : Nat) : String :=
  if n < 10 then "000" ++ toString n
  else if n < 100 then "00" ++ toString n
  else if n < 1000 then "0" ++ toString n
  else toString n

/-- Model of `datetime.now().strftime("%Y-%m-%d %H:%M:%S")` at clock
value `t` (seconds since the epoch; fractional seconds are dropped by
the format, hence the floor). -/
def fmtTime (t : ℚ) : String :=
  let z : Int := ⌊t⌋
  let days := z.fdiv 86400
  let sod := (z.fmod 86400).toNat
  let c := civilFromDays days
  pad4 c.1.toNat ++ "-" ++ pad2 c.2.1 ++ "-" ++ pad2 c.2.2 ++ " " ++
    pad2 (sod / 3600) ++ ":" ++ pad2 (sod % 3600 / 60) ++ ":" ++ pad2 (sod % 60)

/-- Build the result dict of `compute_signals_for_symbol`
(lines 105-123): SL/TP by direction, rounded prices, truncated volumes,
joined reasons, formatted timestamp. -/
def mkResult (sym : String) (dir : Direction) (c v av : ℚ)
    (reasons : List String) (now : ℚ) : SignalResult :=
  { symbol := sym
    signal := dir
    price := round2 c
    sl := match dir with
      | Direction.BUY => round2 (c * (1 - SL_PCT / 100))
      | Direction.SELL => round2 (c * (1 + SL_PCT / 100))
    tp := match dir with
      | Direction.BUY => round2 (c * (1 + TP_PCT / 100))
      | Direction.SELL => round2 (c * (1 - TP_PCT / 100))
    vol := pyInt v
    avg_vol := some (pyInt av)
    reasons := String.intercalate ", " reasons
    time := fmtTime now }

/-- `compute_signals_for_symbol` (lines 59-123) as a function of the
fetched history (`fetch_history` result: `none` for a failed / empty
fetch), the symbol, and the clock.  Returns `none` when the data is
insufficient or no directional rule fires, as the code's `return None`
paths do. -/
def compute_signals_for_symbol (hist : Option (List Bar)) (sym : String)
    (now : ℚ) : Option SignalResult :=
  match hist with
  | none => none
  | some h =>
    if h.length < 30 then none
    else
      match classify (ema20of h) (ema50of h) (rsiOf h) (volSpike h) with
      | none => none
      | some dir =>
        some (mkResult sym dir (todayClose h) (todayVol h) (avgVol h)
          (mkReasons (volSpike h) (decide (ema50of h < ema20of h))
            (decide (ema20of h < ema50of h)) (rsiOf h)) now)

/-- Loop body of `scan_symbols`: `res = compute_signals_for_symbol(sym);
if res: results.append(res)`. -/
def scanStep (fetch : String → Option (List Bar)) (now : ℚ)
    (acc : List SignalResult) (sym : String) : List SignalResult :=
  match compute_signals_for_symbol (fetch sym) sym now with
  | some r => acc ++ [r]
  | none => acc

/-- `scan_symbols` (lines 125-133): iterate the first `limit` symbols in
order, appending each non-`None` per-symbol result.  `fetch` models
`fetch_history`; the `time.sleep` throttle has no effect on the data. -/
def scan_symbols (fetch : String → Option (List Bar)) (symbols : List String)
    (limit : Nat) (now : ℚ) : List SignalResult :=
  (symbols.take limit).foldl (scanStep fetch now) []

/-- The `st.session_state.sent_signals` dict: symbol to last-sent
timestamp string. -/
abbrev SentSignals := String → Option String

/-- Dict update `sent_signals[sym] = v`. -/
def setSent (st : SentSignals) (k v : String) : SentSignals :=
  fun s => if s = k then some v else st s

/-- The per-symbol eligibility decision of the dedupe loop
(lines 231-242): eligible when no prior entry (Python falsy: missing or
empty string), when the stored timestamp does not parse (`except` arm),
or when strictly more than 24 hours have elapsed. -/
def send_allowed (now : ℚ) (lastSent : Option String) : Bool :=
  match lastSent with
  | none => true
  | some s =>
    if s = "" then true
    else
      match parseTime s with
      | none => true
      | some t => decide (24 * 3600 < now - t)

/-- One iteration of the dedupe loop (lines 228-246): an eligible result
is appended to `new_alerts` and the symbol's last-sent state is set to
the formatted current time; an ineligible result changes nothing. -/
def dedupe_step (now : ℚ) (acc : SentSignals × List SignalResult)
    (r : SignalResult) : SentSignals × List SignalResult :=
  if send_allowed now (acc.1 r.symbol) then
    (setSent acc.1 r.symbol (fmtTime now), acc.2 ++ [r])
  else acc

/-- The whole dedupe loop over a batch, started from the session state
and an empty `new_alerts` list. -/
def dedupeBatch (now : ℚ) (st : SentSignals) (results : List SignalResult) :
    SentSignals × List SignalResult :=
  results.foldl (dedupe_step now) (st, [])

/-- The alert phase of the `do_scan` block (lines 227-258): run the
dedupe loop, then attempt a single `send_telegram` call iff `new_alerts`
is non-empty.  `sendOk` models the channel's success/failure return; the
third component records the attempt (`none` = no send attempted). -/
def runScanAlerts (now : ℚ) (st : SentSignals) (results : List SignalResult)
    (sendOk : Bool) : SentSignals × List SignalResult × Option Bool :=
  ((dedupeBatch now st results).1, (dedupeBatch now st results).2,
    if (dedupeBatch now st results).2.isEmpty then none else some sendOk)

/-- Erase the wall-clock field of a result (for comparing two runs of
the classifier modulo evaluation time). -/
def eraseTime (r : SignalResult) : SignalResult :=
  { r with time := "" }

/-! Concrete data used to witness and refute claims. -/

/-- Zip close and volume columns into a history. -/
def mkBars (closes vols : List ℚ) : List Bar :=
  (closes.zip vols).map (fun p => ⟨p.1, p.2⟩)

/-- Volumes 1, ..., 1 with a 100x spike on the last bar. -/
def exVols : List ℚ := List.replicate 29 1 ++ [100]

/-- A 30-bar strictly decreasing price history (closes 30 down to 1)
with a volume spike on the last bar: yields a SELL classification
(RSI 0, EMA20 below EMA50, spike). -/
def exHistSell : List Bar :=
  mkBars ((List.range 30).map (fun i => ((30 - i : Nat) : ℚ))) exVols

/-- A 30-bar strictly increasing price history (closes 1 up to 30) with
a volume spike on the last bar: yields a BUY classification. -/
def exHistBuy : List Bar :=
  mkBars ((List.range 30).map (fun i => ((i + 1 : Nat) : ℚ))) exVols

/-- A 30-bar strictly decreasing history whose last close is negative
(closes 28 down to -1), volume spike on the last bar: the SELL
conditions fire on a non-positive price. -/
def exHistNeg : List Bar :=
  mkBars ((List.range 30).map (fun i => ((28 - (i : Int) : Int) : ℚ))) exVols

/-- A 30-bar strictly decreasing history whose last close is one cent
(closes 29.01 down to 0.01), volume spike on the last bar: a SELL on a
price so small that 2-decimal rounding collapses SL/TP onto the price. -/
def exHistCheap : List Bar :=
  mkBars ((List.range 30).map (fun i => ((30 - i : Nat) : ℚ) - 99 / 100)) exVols

/-- Like `exHistSell` but with ten-fold volumes (baseline 10, spike
1000): a second SELL whose volume exceeds the first one's. -/
def exHistBig : List Bar :=
  mkBars ((List.range 30).map (fun i => ((30 - i : Nat) : ℚ)))
    (List.replicate 29 10 ++ [1000])

/-- A market in which symbol "A" has the small-volume SELL history and
symbol "B" the large-volume one. -/
def exFetch : String → Option (List Bar) :=
  fun s => if s = "A" then some exHistSell else if s = "B" then some exHistBig else none

/-- A three-bar history (shorter than the 14-bar momentum window). -/
def exHist3 : List Bar := [⟨1, 1⟩, ⟨2, 1⟩, ⟨3, 1⟩]

/-- Placeholder record used only as the default of `Option.getD`. -/
def dummyResult : SignalResult :=
  { symbol := "", signal := Direction.BUY, price := 0, sl := 0, tp := 0,
    vol := 0, avg_vol := none, reasons := "", time := "" }

/-- The SELL record the pipeline produces on `exHistSell`. -/
def rexSell : SignalResult :=
  (compute_signals_for_symbol (some exHistSell) "A" 0).getD dummyResult

/-- The BUY record the pipeline produces on `exHistBuy`. -/
def rexBuy : SignalResult :=
  (compute_signals_for_symbol (some exHistBuy) "A" 0).getD dummyResult

/-- The record the pipeline produces on the negative-price history. -/
def rexNeg : SignalResult :=
  (compute_signals_for_symbol (some exHistNeg) "A" 0).getD dummyResult

/-- The record the pipeline produces on the one-cent history. -/
def rexCheap : SignalResult :=
  (compute_signals_for_symbol (some exHistCheap) "A" 0).getD dummyResult

/-- A directional classification for symbol "A" (fields immaterial to
the deduplicator except the symbol). -/
def alertA : SignalResult :=
  { symbol := "A", signal := Direction.BUY, price := 100, sl := 98, tp := 105,
    vol := 1000, avg_vol := some 10, reasons := "Volume spike, 20>50 EMA, RSI 60",
    time := "t" }

/-- Session state holding a well-formed timestamp for symbol "A". -/
def stParsed : SentSignals :=
  fun s => if s = "A" then some "2024-03-10 12:00:00" else none

/-- Session state holding a corrupt (unparsable) timestamp for "A". -/
def stCorrupt : SentSignals :=
  fun s => if s = "A" then some "corrupt" else none

/-- Empty session state (fresh session, nothing sent yet). -/
def stEmpty : SentSignals := fun _ => none

/-- Epoch seconds of 2024-03-10 12:00:00. -/
def t0 : ℚ := ((epochSeconds 2024 3 10 12 0 0 : Int) : ℚ)

/-! Helper lemmas (shared by the claim theorems below). -/

/-- Characterization of the BUY branch of the signals logic. -/
lemma classify_buy_iff (e20 e50 : ℚ) (rv : Option ℚ) (sp : Bool) :
    classify e20 e50 rv sp = some Direction.BUY ↔
      e50 < e20 ∧ (∃ x, rv = some x ∧ 55 < x) ∧ sp = true := by
  constructor
  · intro hc
    unfold classify at hc
    split_ifs at hc with hb hs
    · simp only [Bool.and_eq_true, decide_eq_true_eq] at hb
      cases rv with
      | none => simp [momentumHigh] at hb
      | some x =>
        simp only [momentumHigh, decide_eq_true_eq] at hb
        exact ⟨hb.1.1, ⟨x, rfl, hb.1.2⟩, hb.2⟩
    · exact absurd hc (by simp)
  · rintro ⟨h1, ⟨x, rfl, h55⟩, hsp⟩
    unfold classify
    have hbt : (decide (e50 < e20) && momentumHigh (some x) && sp) = true := by
      simp [momentumHigh, h1, h55, hsp]
    rw [hbt, if_pos rfl]

/-- Characterization of the SELL branch of the signals logic. -/
lemma classify_sell_iff (e20 e50 : ℚ) (rv : Option ℚ) (sp : Bool) :
    classify e20 e50 rv sp = some Direction.SELL ↔
      e20 < e50 ∧ (∃ x, rv = some x ∧ x < 45) ∧ sp = true := by
  constructor
  · intro hc
    unfold classify at hc
    split_ifs at hc with hb hs
    · exact absurd hc (by simp)
    · simp only [Bool.and_eq_true, decide_eq_true_eq] at hs
      cases rv with
      | none => simp [momentumLow] at hs
      | some x =>
        simp only [momentumLow, decide_eq_true_eq] at hs
        exact ⟨hs.1.1, ⟨x, rfl, hs.1.2⟩, hs.2⟩
  · rintro ⟨h1, ⟨x, rfl, h45⟩, hsp⟩
    unfold classify
    have hbf : (decide (e50 < e20) && momentumHigh (some x) && sp) = false := by
      simp [lt_asymm h1]
    have hst : (decide (e20 < e50) && momentumLow (some x) && sp) = true := by
      simp [momentumLow, h1, h45, hsp]
    rw [hbf, hst]
    simp

/-- No classification is produced exactly when neither compound rule
fires. -/
lemma classify_none_iff (e20 e50 : ℚ) (rv : Option ℚ) (sp : Bool) :
    classify e20 e50 rv sp = none ↔
      ¬(e50 < e20 ∧ (∃ x, rv = some x ∧ 55 < x) ∧ sp = true) ∧
      ¬(e20 < e50 ∧ (∃ x, rv = some x ∧ x < 45) ∧ sp = true) := by
  rw [← classify_buy_iff e20 e50 rv sp, ← classify_sell_iff e20 e50 rv sp]
  cases hc : classify e20 e50 rv sp with
  | none => simp
  | some d => cases d <;> simp

/-- Rounding to hundredths preserves strict order across a gap of at
least one hundredth. -/
lemma round2_lt (a b : ℚ) (h : 1 / 100 ≤ b - a) : round2 a < round2 b := by
  have ha : ((round (100 * a) : Int) : ℚ) ≤ 100 * a + 1 / 2 := by
    rw [round_eq]
    exact_mod_cast Int.floor_le (100 * a + 1 / 2)
  have hb : 100 * b - 1 / 2 < ((round (100 * b) : Int) : ℚ) := by
    rw [round_eq]
    have := Int.sub_one_lt_floor (100 * b + 1 / 2)
    push_cast at this ⊢
    linarith
  have hlt : ((round (100 * a) : Int) : ℚ) < ((round (100 * b) : Int) : ℚ) := by
    linarith
  unfold round2
  linarith

/-- Folding the collect-loop of `scan_symbols` is appending the
`filterMap` of the per-symbol computation: results stay in symbol
order. -/
lemma foldl_collect_eq_filterMap (fetch : String → Option (List Bar)) (now : ℚ) :
    ∀ (l : List String) (acc : List SignalResult),
      l.foldl (scanStep fetch now) acc
        = acc ++ l.filterMap (fun s => compute_signals_for_symbol (fetch s) s now) := by
  intro l
  induction l with
  | nil => intro acc; simp
  | cons s l ih =>
    intro acc
    simp only [List.foldl_cons, List.filterMap_cons]
    unfold scanStep
    cases hf : compute_signals_for_symbol (fetch s) s now with
    | none => simpa using ih acc
    | some r => simpa [List.append_assoc] using ih (acc ++ [r])

/-- Length of the tail of the difference series. -/
lemma diffsFrom_length (p : ℚ) (l : List ℚ) : (diffsFrom p l).length = l.length := by
  induction l generalizing p with
  | nil => rfl
  | cons c cs ih => simp [diffsFrom, ih]

/-- The difference series is aligned with its input. -/
lemma diffs_length (l : List ℚ) : (diffs l).length = l.length := by
  cases l with
  | nil => rfl
  | cons c cs => simp [diffs, diffsFrom_length]

/-- On inputs shorter than the window, every position of a rolling mean
is undefined (the window guard `n ≤ i + 1` never holds inside the
list, and out-of-range lookups default to `none`). -/
lemma rollingMean_getD_none (n : Nat) (xs : List (Option ℚ)) (hn : xs.length < n)
    (i : Nat) : (rollingMean n xs).getD i none = none := by
  unfold rollingMean
  rcases Nat.lt_or_ge i xs.length with hi | hi
  · rw [List.getD_eq_getElem?_getD, List.getElem?_map, List.getElem?_range hi]
    simp only [Option.map_some', Option.getD_some]
    rw [if_neg (by omega)]
  · rw [List.getD_eq_getElem?_getD, List.getElem?_eq_none (by simpa using hi)]
    rfl

/-- On histories shorter than the 14-bar momentum window, every RSI
entry is NaN. -/
lemma rsi_all_none (closes : List ℚ) (h : closes.length < 14) :
    ∀ x ∈ rsiSeries closes, x = none := by
  intro x hx
  unfold rsiSeries at hx
  simp only [List.mem_map, List.mem_range] at hx
  obtain ⟨i, _, rfl⟩ := hx
  rw [rollingMean_getD_none 14 _ (by simpa [diffs_length] using h) i]

/-- Invariant of the dedupe loop: once every already-collected alert's
symbol maps to the freshly formatted time, this stays true to the end of
the loop (the loop only ever writes that one value). -/
lemma dedupe_fold_state (now : ℚ) :
    ∀ (results : List SignalResult) (st : SentSignals) (al : List SignalResult),
      (∀ r ∈ al, st r.symbol = some (fmtTime now)) →
      ∀ r ∈ (results.foldl (dedupe_step now) (st, al)).2,
        (results.foldl (dedupe_step now) (st, al)).1 r.symbol = some (fmtTime now) := by
  intro results
  induction results with
  | nil => intro st al hal; simpa using hal
  | cons q results ih =>
    intro st al hal
    simp only [List.foldl_cons]
    unfold dedupe_step
    split
    · apply ih
      intro r hr
      rcases List.mem_append.mp hr with hmem | hmem
      · unfold setSent
        by_cases he : r.symbol = q.symbol
        · rw [if_pos he]
        · rw [if_neg he]; exact hal r hmem
      · simp only [List.mem_singleton] at hmem
        subst hmem
        unfold setSent
        rw [if_pos rfl]
    · exact ih st al hal

/-! Claim theorems. -/

/-- C3: the classifier's direction is BUY iff the fast average strictly
exceeds the slow one, the oscillator is defined and strictly above 55,
and the spike flag holds; SELL iff the symmetric bearish conditions
hold (oscillator strictly below 45); otherwise no classification is
produced.  Exact equality of the averages, or an oscillator exactly at
55 or 45, falls outside the strict inequalities, hence never satisfies
the respective condition. -/
theorem classifier_direction_spec (e20 e50 : ℚ) (rv : Option ℚ) (sp : Bool) :
    (classify e20 e50 rv sp = some Direction.BUY ↔
      e50 < e20 ∧ (∃ x, rv = some x ∧ 55 < x) ∧ sp = true) ∧
    (classify e20 e50 rv sp = some Direction.SELL ↔
      e20 < e50 ∧ (∃ x, rv = some x ∧ x < 45) ∧ sp = true) ∧
    (classify e20 e50 rv sp = none ↔
      ¬(e50 < e20 ∧ (∃ x, rv = some x ∧ 55 < x) ∧ sp = true) ∧
      ¬(e20 < e50 ∧ (∃ x, rv = some x ∧ x < 45) ∧ sp = true)) :=
  ⟨classify_buy_iff e20 e50 rv sp, classify_sell_iff e20 e50 rv sp,
    classify_none_iff e20 e50 rv sp⟩

/-- C4 (amended): the batch handed to the dedupe loop is the sequence of
directional classifications in the symbols' original list order — the
fold of `scan_symbols` is the order-preserving `filterMap` of the
per-symbol computation; no volume sort is applied anywhere. -/
theorem batch_order_amended (fetch : String → Option (List Bar))
    (symbols : List String) (limit : Nat) (now : ℚ) :
    scan_symbols fetch symbols limit now
      = (symbols.take limit).filterMap
          (fun s => compute_signals_for_symbol (fetch s) s now) := by
  unfold scan_symbols
  simpa using foldl_collect_eq_filterMap fetch now (symbols.take limit) []

attribute [local semireducible] Rat.add Rat.mul Rat.inv Rat.sub Rat.ofScientific in
/-- C4 (counterexample): with symbol "A" scanning to a SELL of volume
100 and symbol "B" to a SELL of volume 1000, the batch produced by
`scan_symbols` is not in descending-volume order, refuting the claimed
ordering. -/
theorem batch_volume_order_claim_false :
    ¬ List.Pairwise (fun a b : SignalResult => b.vol ≤ a.vol)
      (scan_symbols exFetch ["A", "B"] 2 0) := by
  decide

/-- C6: on a bar sequence shorter than 14 bars, every momentum
oscillator entry is undefined, and no Classification at all is produced
from such a sequence (the pipeline skips it), so in particular none
citing an oscillator reason. -/
theorem rsi_short_history_spec (hist : List Bar) (sym : String) (now : ℚ)
    (h : hist.length < 14) :
    (rsiSeries (closesOf hist)).all Option.isNone = true ∧
    compute_signals_for_symbol (some hist) sym now = none := by
  constructor
  · rw [List.all_eq_true]
    intro x hx
    rw [rsi_all_none (closesOf hist) (by simpa [closesOf] using h) x hx]
    rfl
  · simp only [compute_signals_for_symbol]
    rw [if_pos (by omega)]

/-- C6 (witness): the three-bar history has only undefined oscillator
entries and produces no Classification. -/
theorem rsi_short_history_spec_witness :
    (rsiSeries (closesOf exHist3)).all Option.isNone = true ∧
    compute_signals_for_symbol (some exHist3) "A" 0 = none :=
  rsi_short_history_spec exHist3 "A" 0 (by decide)

/-- C9 (amended): two runs of the per-symbol pipeline on the same
fetched history and symbol agree on every field of the produced record
except the `time` field, which is stamped from the wall clock. -/
theorem classifier_idempotent_amended (hist : Option (List Bar)) (sym : String)
    (t1 t2 : ℚ) :
    (compute_signals_for_symbol hist sym t1).map eraseTime
      = (compute_signals_for_symbol hist sym t2).map eraseTime := by
  cases hist with
  | none => rfl
  | some h =>
    simp only [compute_signals_for_symbol]
    split
    · rfl
    · cases hcl : classify (ema20of h) (ema50of h) (rsiOf h) (volSpike h) with
      | none => rfl
      | some dir => simp [mkResult, eraseTime]

attribute [local semireducible] Rat.add Rat.mul Rat.inv Rat.sub Rat.ofScientific in
/-- C9 (counterexample): the same bar history for the same symbol,
evaluated at two wall-clock instants, produces two Classifications that
are not identical (their `time` fields differ), refuting bit-for-bit
idempotence over every field. -/
theorem classifier_idempotent_claim_false :
    (compute_signals_for_symbol (some exHistSell) "A" 0).isSome = true ∧
    compute_signals_for_symbol (some exHistSell) "A" 0
      ≠ compute_signals_for_symbol (some exHistSell) "A" 1 := by
  constructor
  · decide
  · decide

attribute [local semireducible] Rat.add Rat.mul Rat.inv Rat.sub Rat.ofScientific in
/-- C2 (counterexample): on the one-cent SELL history the emitted record
has positive price 0.01, yet its stop-loss rounds to the same 0.01, so
`take_profit < price < stop_loss` fails for an emitted SELL with
positive price. -/
theorem risk_levels_claim_false :
    compute_signals_for_symbol (some exHistCheap) "A" 0 = some rexCheap ∧
    rexCheap.signal = Direction.SELL ∧
    0 < rexCheap.price ∧
    ¬(rexCheap.tp < rexCheap.price ∧ rexCheap.price < rexCheap.sl) := by
  refine ⟨by decide, by decide, by decide, ?_⟩
  intro hcon
  exact absurd hcon.2 (by decide)

/-- C2 (amended): for every emitted Classification whose underlying
close is at least 0.5 (so that 2 percent of the price spans at least one
rounding unit), the rounded levels are strictly sided: BUY gives
`stop_loss < price < take_profit` and SELL gives
`take_profit < price < stop_loss`. -/
theorem risk_levels_sided_amended (hist : List Bar) (sym : String) (now : ℚ)
    (r : SignalResult) (hc : 1 / 2 ≤ todayClose hist)
    (h : compute_signals_for_symbol (some hist) sym now = some r) :
    (r.signal = Direction.BUY → r.sl < r.price ∧ r.price < r.tp) ∧
    (r.signal = Direction.SELL → r.tp < r.price ∧ r.price < r.sl) := by
  simp only [compute_signals_for_symbol] at h
  split at h
  · exact absurd h (by simp)
  · split at h
    · exact absurd h (by simp)
    · rename_i dir hcl
      rw [Option.some_inj] at h
      subst h
      cases dir with
      | BUY =>
        refine ⟨fun _ => ⟨?_, ?_⟩, fun hcon => absurd hcon (by simp [mkResult])⟩
        · show round2 (todayClose hist * (1 - SL_PCT / 100)) < round2 (todayClose hist)
          apply round2_lt
          unfold SL_PCT
          linarith
        · show round2 (todayClose hist) < round2 (todayClose hist * (1 + TP_PCT / 100))
          apply round2_lt
          unfold TP_PCT
          linarith
      | SELL =>
        refine ⟨fun hcon => absurd hcon (by simp [mkResult]), fun _ => ⟨?_, ?_⟩⟩
        · show round2 (todayClose hist * (1 - TP_PCT / 100)) < round2 (todayClose hist)
          apply round2_lt
          unfold TP_PCT
          linarith
        · show round2 (todayClose hist) < round2 (todayClose hist * (1 + SL_PCT / 100))
          apply round2_lt
          unfold SL_PCT
          linarith

attribute [local semireducible] Rat.add Rat.mul Rat.inv Rat.sub Rat.ofScientific in
/-- C2 (amended, witness): on the SELL history with close 1 the sided
inequalities hold concretely. -/
theorem risk_levels_sided_amended_witness :
    rexSell.tp < rexSell.price ∧ rexSell.price < rexSell.sl :=
  (risk_levels_sided_amended exHistSell "A" 0 rexSell (by decide) (by decide)).2
    (by decide)

attribute [local semireducible] Rat.add Rat.mul Rat.inv Rat.sub Rat.ofScientific in
/-- C5 (counterexample): on the history whose last close is -1 the SELL
conditions fire and the pipeline emits a full Classification with
negative price and computed SL/TP — no `InvalidPrice` failure and no
skip happens for a non-positive price. -/
theorem invalid_price_claim_false :
    todayClose exHistNeg < 0 ∧
    compute_signals_for_symbol (some exHistNeg) "A" 0 = some rexNeg ∧
    rexNeg.price = -1 ∧ rexNeg.sl = -51 / 50 ∧ rexNeg.tp = -19 / 20 := by
  refine ⟨by decide, by decide, by decide, by decide, by decide⟩

/-- C5 (amended): the code contains no price validation at all — for
every history of at least 30 bars on which a directional rule fires, a
Classification with formula-computed stop-loss and take-profit is
produced, regardless of the sign of the close price. -/
theorem no_price_validation_amended (hist : List Bar) (sym : String) (now : ℚ)
    (dir : Direction) (h30 : 30 ≤ hist.length)
    (hcl : classify (ema20of hist) (ema50of hist) (rsiOf hist) (volSpike hist)
      = some dir) :
    compute_signals_for_symbol (some hist) sym now
      = some (mkResult sym dir (todayClose hist) (todayVol hist) (avgVol hist)
          (mkReasons (volSpike hist) (decide (ema50of hist < ema20of hist))
            (decide (ema20of hist < ema50of hist)) (rsiOf hist)) now) := by
  simp only [compute_signals_for_symbol]
  rw [if_neg (by omega), hcl]

attribute [local semireducible] Rat.add Rat.mul Rat.inv Rat.sub Rat.ofScientific in
/-- C5 (amended, witness): instantiated at the negative-price history,
where the SELL rule fires and a record is emitted. -/
theorem no_price_validation_amended_witness :
    compute_signals_for_symbol (some exHistNeg) "A" 0
      = some (mkResult "A" Direction.SELL (todayClose exHistNeg)
          (todayVol exHistNeg) (avgVol exHistNeg)
          (mkReasons (volSpike exHistNeg)
            (decide (ema50of exHistNeg < ema20of exHistNeg))
            (decide (ema20of exHistNeg < ema50of exHistNeg)) (rsiOf exHistNeg)) 0) :=
  no_price_validation_amended exHistNeg "A" 0 Direction.SELL (by decide) (by decide)

/-- C10: every emitted record's joined reasons string consists of
exactly the volume-spike label, the direction's single trend label, and
an RSI value, in that order. -/
theorem reasons_complete_spec (hist : List Bar) (sym : String) (now : ℚ)
    (r : SignalResult) (h : compute_signals_for_symbol (some hist) sym now = some r) :
    (r.signal = Direction.BUY → ∃ n : Int,
      r.reasons = String.intercalate ", "
        ["Volume spike", "20>50 EMA", "RSI " ++ toString n]) ∧
    (r.signal = Direction.SELL → ∃ n : Int,
      r.reasons = String.intercalate ", "
        ["Volume spike", "20<50 EMA", "RSI " ++ toString n]) := by
  simp only [compute_signals_for_symbol] at h
  split at h
  · exact absurd h (by simp)
  · split at h
    · exact absurd h (by simp)
    · rename_i dir hcl
      rw [Option.some_inj] at h
      subst h
      cases dir with
      | BUY =>
        refine ⟨fun _ => ?_, fun hcon => absurd hcon (by simp [mkResult])⟩
        obtain ⟨hup, ⟨x, hx, _⟩, hsp⟩ := (classify_buy_iff _ _ _ _).mp hcl
        refine ⟨pyInt x, ?_⟩
        show String.intercalate ", "
          (mkReasons (volSpike hist) (decide (ema50of hist < ema20of hist))
            (decide (ema20of hist < ema50of hist)) (rsiOf hist)) = _
        rw [hsp] at *
        have hd : decide (ema20of hist < ema50of hist) = false := by
          simp [lt_asymm hup]
        have hu : decide (ema50of hist < ema20of hist) = true := by
          simp [hup]
        rw [hsp, hu, hd, hx]
        simp [mkReasons]
      | SELL =>
        refine ⟨fun hcon => absurd hcon (by simp [mkResult]), fun _ => ?_⟩
        obtain ⟨hdn, ⟨x, hx, _⟩, hsp⟩ := (classify_sell_iff _ _ _ _).mp hcl
        refine ⟨pyInt x, ?_⟩
        show String.intercalate ", "
          (mkReasons (volSpike hist) (decide (ema50of hist < ema20of hist))
            (decide (ema20of hist < ema50of hist)) (rsiOf hist)) = _
        have hu : decide (ema50of hist < ema20of hist) = false := by
          simp [lt_asymm hdn]
        have hd : decide (ema20of hist < ema50of hist) = true := by
          simp [hdn]
        rw [hsp, hu, hd, hx]
        simp [mkReasons]

attribute [local semireducible] Rat.add Rat.mul Rat.inv Rat.sub Rat.ofScientific in
/-- C10 (witness): the BUY history's record carries exactly the three
reasons in order, with RSI value 99. -/
theorem reasons_complete_spec_witness :
    ∃ n : Int, rexBuy.reasons = String.intercalate ", "
      ["Volume spike", "20>50 EMA", "RSI " ++ toString n] :=
  (reasons_complete_spec exHistBuy "A" 0 rexBuy (by decide)).1 (by decide)

/-- C1: the dedupe decision per symbol — with no recorded prior
notification the incoming directional Classification is eligible (and
the state is stamped with the formatted current time); with a recorded
timestamp parsing to `t`, arrival within 24 hours (`now - t ≤ 86400`)
is not eligible and leaves everything unchanged, while arrival strictly
later than 24 hours is eligible again and re-stamps the state.  Every
eligible decision updates the symbol's last-notified entry to `now`. -/
theorem dedup_cooldown_spec (now t : ℚ) (st : SentSignals)
    (al : List SignalResult) (r : SignalResult) :
    (st r.symbol = none →
      dedupe_step now (st, al) r
        = (setSent st r.symbol (fmtTime now), al ++ [r])) ∧
    (∀ s, st r.symbol = some s → parseTime s = some t →
      (now - t ≤ 24 * 3600 → dedupe_step now (st, al) r = (st, al)) ∧
      (24 * 3600 < now - t →
        dedupe_step now (st, al) r
          = (setSent st r.symbol (fmtTime now), al ++ [r]))) := by
  constructor
  · intro hnone
    unfold dedupe_step send_allowed
    dsimp only
    rw [hnone]
    rfl
  · intro s hs hp
    have hne : s ≠ "" := by
      intro hcon
      rw [hcon] at hp
      exact Option.noConfusion (hp.symm.trans (rfl : parseTime "" = none)).symm
    constructor
    · intro hle
      unfold dedupe_step send_allowed
      dsimp only
      rw [hs]
      simp only [if_neg hne]
      rw [hp]
      simp [not_lt.mpr hle]
    · intro hgt
      unfold dedupe_step send_allowed
      dsimp only
      rw [hs]
      simp only [if_neg hne]
      rw [hp]
      simp [hgt]

attribute [local semireducible] Rat.add Rat.mul Rat.inv Rat.sub Rat.ofScientific in
/-- C1 (witness): with "A" last notified at 2024-03-10 12:00:00 and a
new SELL-or-BUY arriving 24 hours and one second later, the decision is
eligible and the state is re-stamped. -/
theorem dedup_cooldown_spec_witness :
    dedupe_step (t0 + 86401) (stParsed, []) alertA
      = (setSent stParsed alertA.symbol (fmtTime (t0 + 86401)), [] ++ [alertA]) :=
  ((dedup_cooldown_spec (t0 + 86401) t0 stParsed [] alertA).2
    "2024-03-10 12:00:00" (by decide) (by decide)).2 (by decide)

/-- C8: a stored last-notified timestamp that does not parse is treated
fail-open — the incoming directional Classification is eligible and the
corrupt entry is overwritten with the current time. -/
theorem dedup_fail_open_spec (now : ℚ) (st : SentSignals)
    (al : List SignalResult) (r : SignalResult) (s : String)
    (hs : st r.symbol = some s) (hp : parseTime s = none) :
    dedupe_step now (st, al) r
      = (setSent st r.symbol (fmtTime now), al ++ [r]) := by
  unfold dedupe_step send_allowed
  dsimp only
  rw [hs]
  by_cases hne : s = ""
  · simp [hne]
  · simp only [if_neg hne]
    rw [hp]
    rfl

/-- C8 (witness): the corrupt entry "corrupt" for symbol "A" is
fail-open eligible. -/
theorem dedup_fail_open_spec_witness :
    dedupe_step 0 (stCorrupt, []) alertA
      = (setSent stCorrupt alertA.symbol (fmtTime 0), [] ++ [alertA]) :=
  dedup_fail_open_spec 0 stCorrupt [] alertA "corrupt" (by decide) (by decide)

/-- C7: in the alert phase, the session-state updates of all eligible
symbols are determined by the dedupe loop alone, before the single send
attempt: the resulting state equals the loop's state, is identical
whether the send succeeds or fails (no rollback), exactly one send is
attempted for a non-empty alert list (no per-alert resends), and every
alerted symbol's entry holds the formatted current time. -/
theorem state_before_send_spec (now : ℚ) (st : SentSignals)
    (results : List SignalResult) (ok : Bool)
    (h : (dedupeBatch now st results).2 ≠ []) :
    (runScanAlerts now st results ok).1 = (dedupeBatch now st results).1 ∧
    (runScanAlerts now st results ok).1 = (runScanAlerts now st results (!ok)).1 ∧
    (runScanAlerts now st results ok).2.2 = some ok ∧
    (dedupeBatch now st results).2.all
      (fun r => decide
        ((runScanAlerts now st results ok).1 r.symbol = some (fmtTime now)))
      = true := by
  refine ⟨rfl, rfl, ?_, ?_⟩
  · unfold runScanAlerts
    rw [if_neg (by simpa using h)]
  · rw [List.all_eq_true]
    intro r hr
    rw [decide_eq_true_eq]
    exact dedupe_fold_state now results st [] (by simp) r hr

/-- C7 (witness): with an empty session state and a one-element batch,
the symbol is alerted, its state is stamped, and one send is attempted
even though the send fails. -/
theorem state_before_send_spec_witness :
    (runScanAlerts 0 stEmpty [alertA] false).1 = (dedupeBatch 0 stEmpty [alertA]).1 ∧
    (runScanAlerts 0 stEmpty [alertA] false).1
      = (runScanAlerts 0 stEmpty [alertA] (!false)).1 ∧
    (runScanAlerts 0 stEmpty [alertA] false).2.2 = some false ∧
    (dedupeBatch 0 stEmpty [alertA]).2.all
      (fun r => decide
        ((runScanAlerts 0 stEmpty [alertA] false).1 r.symbol = some (fmtTime 0)))
      = true :=
  state_before_send_spec 0 stEmpty [alertA] false (by decide)
